import Mathlib

/-!
Shallow embedding of the in-memory record store in `src/main.py`
(a FastAPI CRUD application over two collections, `users_db` and `items_db`).

Modelling conventions:
* A Python `dict` is embedded as an insertion-ordered association list
  `List (String × α)`: assignment to a fresh key appends, assignment to an
  existing key replaces the value in place (keeping its position), `del`
  removes the entry.  This matches Python's guaranteed dict iteration order.
* Pydantic model instances are Lean structures.  Every attribute of a
  Python object can hold `None`, and the source declares `id`/`created_at`
  as `Optional`, so each field is embedded as an `Option`.  Float fields
  (`price`) are embedded as `ℚ`; timestamps as `Nat`.
* A parsed `UserUpdate`/`ItemUpdate` body distinguishes, for each field,
  "absent from the request" (`none`) from "present with value `v`"
  (`some v`), where `v` itself is an `Option` because each update field is
  declared `Optional[...]` and therefore an explicit JSON `null` is a
  valid value for it.  `model_dump(exclude_unset=True)` keeps exactly the
  present fields, `null` values included.
* Request-body validation (the pydantic `Field` constraints) happens before
  a handler body runs; a constraint violation is a `validationErr` and the
  handler never executes.  `EmailStr` syntax checking is kept abstract as a
  parameter `emailOk : String → Bool`.
* Operations on fields that Python would crash on when the attribute is
  `None` (e.g. `item.price >= min_price`) are totalised with a `none`
  branch; theorems about them carry the hypothesis that the relevant
  fields are present, so the arbitrary branch never carries weight.
-/

namespace FirstUvPro

/-- The two error kinds surfaced by the API handlers. -/
inductive ApiErr where
  | notFound
  | validationErr
  deriving DecidableEq, Repr

/-- `users_db` / `items_db`: a Python dict as an insertion-ordered
association list. -/
abbrev Db (α : Type) : Type := List (String × α)

/-- Dict lookup `db[k]` / `k in db`, as an `Option`. -/
def dbFind {α : Type} (db : Db α) (k : String) : Option α :=
  (db.find? (fun p => decide (p.1 = k))).map (fun p => p.2)

/-- Dict assignment `db[k] = v`: replace in place if the key exists,
otherwise append (Python dicts keep insertion order). -/
def dbInsert {α : Type} (db : Db α) (k : String) (v : α) : Db α :=
  if db.any (fun p => decide (p.1 = k)) then
    db.map (fun p => if p.1 = k then (k, v) else p)
  else
    db ++ [(k, v)]

/-- Dict deletion `del db[k]`. -/
def dbDelete {α : Type} (db : Db α) (k : String) : Db α :=
  db.filter (fun p => !decide (p.1 = k))

/-- `list(db.values())`, in insertion order. -/
def dbValues {α : Type} (db : Db α) : List α :=
  db.map (fun p => p.2)

/-- Pydantic model `User` (src/main.py lines 21-35).  Every attribute may
hold `None`: `id`/`created_at` are `Optional` in the source, and the other
attributes can be set to `None` by `setattr`. -/
structure User where
  id : Option String
  name : Option String
  email : Option String
  age : Option Int
  created_at : Option Nat
  deriving DecidableEq, Repr

/-- Pydantic model `UserUpdate` (lines 37-40).  Outer `Option`: absent vs
present in the request body; inner `Option`: an explicit JSON `null`,
which each `Optional[...]` field accepts. -/
structure UserUpdate where
  name : Option (Option String)
  email : Option (Option String)
  age : Option (Option Int)
  deriving DecidableEq, Repr

/-- Pydantic model `Item` (lines 42-58). -/
structure Item where
  id : Option String
  title : Option String
  description : Option String
  price : Option ℚ
  quantity : Option Int
  created_at : Option Nat
  deriving DecidableEq, Repr

/-- Pydantic model `ItemUpdate` (lines 60-64). -/
structure ItemUpdate where
  title : Option (Option String)
  description : Option (Option String)
  price : Option (Option ℚ)
  quantity : Option (Option Int)
  deriving DecidableEq, Repr

/-! ### Field constraints (the pydantic `Field` declarations) -/

/-- `name: str = Field(..., min_length=1, max_length=100)` on the stored
attribute: present and length in [1,100]. -/
def nameOk (n : Option String) : Bool :=
  match n with
  | some s => 1 ≤ s.length && s.length ≤ 100
  | none => false

/-- `age: int = Field(..., ge=0, le=150)`. -/
def ageOk (a : Option Int) : Bool :=
  match a with
  | some i => 0 ≤ i && i ≤ 150
  | none => false

/-- `title: str = Field(..., min_length=1, max_length=200)`. -/
def titleOk (t : Option String) : Bool :=
  match t with
  | some s => 1 ≤ s.length && s.length ≤ 200
  | none => false

/-- `price: float = Field(..., gt=0)`. -/
def priceOk (p : Option ℚ) : Bool :=
  match p with
  | some q => 0 < q
  | none => false

/-- `quantity: int = Field(default=1, ge=0)`. -/
def quantityOk (q : Option Int) : Bool :=
  match q with
  | some i => 0 ≤ i
  | none => false

/-- The domain constraints of the `User` model, as enforced when a `User`
body is parsed (creation) or re-serialised (`response_model=User`).
`emailOk` abstracts the `EmailStr` syntax check. -/
def userFieldOk (emailOk : String → Bool) (u : User) : Bool :=
  nameOk u.name &&
    (match u.email with | some e => emailOk e | none => false) &&
    ageOk u.age

/-- The domain constraints of the `Item` model. -/
def itemFieldOk (it : Item) : Bool :=
  titleOk it.title && priceOk it.price && quantityOk it.quantity

/-- Validation of a parsed `UserUpdate` body: an absent field is fine, a
present field must satisfy its constraint — but each field is declared
`Optional[...]`, i.e. `Union[..., None]`, so an explicit `null` is always
accepted. -/
def UserUpdate.valid (emailOk : String → Bool) (p : UserUpdate) : Bool :=
  (match p.name with
   | none => true
   | some none => true
   | some (some s) => 1 ≤ s.length && s.length ≤ 100) &&
  (match p.email with
   | none => true
   | some none => true
   | some (some e) => emailOk e) &&
  (match p.age with
   | none => true
   | some none => true
   | some (some i) => 0 ≤ i && i ≤ 150)

/-- Validation of a parsed `ItemUpdate` body (`description` carries no
constraint). -/
def ItemUpdate.valid (p : ItemUpdate) : Bool :=
  (match p.title with
   | none => true
   | some none => true
   | some (some s) => 1 ≤ s.length && s.length ≤ 200) &&
  (match p.price with
   | none => true
   | some none => true
   | some (some q) => 0 < q) &&
  (match p.quantity with
   | none => true
   | some none => true
   | some (some i) => 0 ≤ i)

/-! ### The setattr merge loop (`update_user` lines 140-146,
`update_item` lines 218-224): for each field in
`model_dump(exclude_unset=True)`, overwrite the stored attribute. -/

/-- Value-level effect of the `setattr` loop of `update_user`. -/
def applyUserUpdate (u : User) (p : UserUpdate) : User :=
  { u with
    name := match p.name with | none => u.name | some v => v
    email := match p.email with | none => u.email | some v => v
    age := match p.age with | none => u.age | some v => v }

/-- Value-level effect of the `setattr` loop of `update_item`. -/
def applyItemUpdate (it : Item) (p : ItemUpdate) : Item :=
  { it with
    title := match p.title with | none => it.title | some v => v
    description := match p.description with | none => it.description | some v => v
    price := match p.price with | none => it.price | some v => v
    quantity := match p.quantity with | none => it.quantity | some v => v }

/-- The all-absent update body `{}`. -/
def emptyUserUpdate : UserUpdate := ⟨none, none, none⟩

/-- The all-absent update body `{}`. -/
def emptyItemUpdate : ItemUpdate := ⟨none, none, none, none⟩

/-! ### User endpoints (src/main.py lines 101-164) -/

/-- `create_user` (lines 101-107): the server overwrites `id` and
`created_at` with a freshly generated uuid string and the current time,
then stores the record under the new id.  Returns the stored record and
the new store. -/
def create_user (db : Db User) (gen : String) (now : Nat) (user : User) :
    User × Db User :=
  let user := { user with id := some gen, created_at := some now }
  (user, dbInsert db gen user)

/-- `get_all_users` (lines 109-116): pagination window
`users_list[skip : skip + limit]`. -/
def get_all_users (db : Db User) (skip limit : Nat) : List User :=
  let users_list := dbValues db
  (users_list.drop skip).take limit

/-- `get_user` (lines 118-126). -/
def get_user (db : Db User) (user_id : String) : Except ApiErr User :=
  match dbFind db user_id with
  | some u => .ok u
  | none => .error .notFound

/-- `update_user` (lines 128-147), together with the body validation that
runs before the handler.  Returns the handler result and the store after
the call. -/
def update_user (db : Db User) (emailOk : String → Bool) (user_id : String)
    (p : UserUpdate) : Except ApiErr User × Db User :=
  if p.valid emailOk then
    match dbFind db user_id with
    | none => (.error .notFound, db)
    | some stored =>
        let stored := applyUserUpdate stored p
        (.ok stored, dbInsert db user_id stored)
  else
    (.error .validationErr, db)

/-- `delete_user` (lines 149-158). -/
def delete_user (db : Db User) (user_id : String) :
    Except ApiErr Unit × Db User :=
  if (dbFind db user_id).isSome then
    (.ok (), dbDelete db user_id)
  else
    (.error .notFound, db)

/-- Case-insensitive substring test on character lists, the model of
Python's `needle in hay` on lowered strings. -/
def containsSub (needle hay : List Char) : Bool :=
  match hay with
  | [] => needle.isEmpty
  | _ :: t => needle.isPrefixOf hay || containsSub needle t

/-- Python `str.lower()`: lower each character. -/
def strLower (s : String) : String :=
  ⟨s.data.map Char.toLower⟩

/-- `search_users_by_email` (lines 160-164):
`[user for user in users_db.values() if email.lower() in user.email.lower()]`.
A user whose `email` attribute is `None` would crash Python; the model
keeps such a user out, and theorems assume emails are present. -/
def search_users_by_email (db : Db User) (email : String) : List User :=
  (dbValues db).filter (fun user =>
    match user.email with
    | some e => containsSub (strLower email).data (strLower e).data
    | none => false)

/-! ### Item endpoints (src/main.py lines 170-236) -/

/-- `create_item` (lines 170-176). -/
def create_item (db : Db Item) (gen : String) (now : Nat) (item : Item) :
    Item × Db Item :=
  let item := { item with id := some gen, created_at := some now }
  (item, dbInsert db gen item)

/-- `item.price >= min_price`; `none` stands for a `price` attribute
Python would crash on, theorems assume prices are present. -/
def priceGe (it : Item) (m : ℚ) : Bool :=
  match it.price with
  | some p => m ≤ p
  | none => false

/-- `item.price <= max_price`. -/
def priceLe (it : Item) (m : ℚ) : Bool :=
  match it.price with
  | some p => p ≤ m
  | none => false

/-- `get_all_items` (lines 178-194): optional price filters applied in
sequence, then the window `items_list[skip : skip + limit]`. -/
def get_all_items (db : Db Item) (skip limit : Nat)
    (min_price max_price : Option ℚ) : List Item :=
  let items_list := dbValues db
  let items_list :=
    match min_price with
    | none => items_list
    | some m => items_list.filter (fun it => priceGe it m)
  let items_list :=
    match max_price with
    | none => items_list
    | some m => items_list.filter (fun it => priceLe it m)
  (items_list.drop skip).take limit

/-- The filter stage of `get_all_items`, before the pagination window. -/
def itemsFiltered (db : Db Item) (min_price max_price : Option ℚ) :
    List Item :=
  let items_list := dbValues db
  let items_list :=
    match min_price with
    | none => items_list
    | some m => items_list.filter (fun it => priceGe it m)
  match max_price with
  | none => items_list
  | some m => items_list.filter (fun it => priceLe it m)

/-- `get_item` (lines 196-204). -/
def get_item (db : Db Item) (item_id : String) : Except ApiErr Item :=
  match dbFind db item_id with
  | some it => .ok it
  | none => .error .notFound

/-- `update_item` (lines 206-225), with the body validation that runs
before the handler. -/
def update_item (db : Db Item) (item_id : String) (p : ItemUpdate) :
    Except ApiErr Item × Db Item :=
  if p.valid then
    match dbFind db item_id with
    | none => (.error .notFound, db)
    | some stored =>
        let stored := applyItemUpdate stored p
        (.ok stored, dbInsert db item_id stored)
  else
    (.error .validationErr, db)

/-- `delete_item` (lines 227-236). -/
def delete_item (db : Db Item) (item_id : String) :
    Except ApiErr Unit × Db Item :=
  if (dbFind db item_id).isSome then
    (.ok (), dbDelete db item_id)
  else
    (.error .notFound, db)

/-! ### Statistics (src/main.py lines 242-261) -/

/-- Banker's rounding of a rational to an integer, the model of Python's
`round` (ties go to the even integer; binary-float representation effects
are not modelled). -/
def roundHalfToEven (q : ℚ) : ℤ :=
  let f : ℤ := ⌊q⌋
  let r : ℚ := q - f
  if r < 1 / 2 then f
  else if 1 / 2 < r then f + 1
  else if f % 2 = 0 then f else f + 1

/-- Python `round(x, 2)`. -/
def round2dp (q : ℚ) : ℚ :=
  (roundHalfToEven (q * 100) : ℚ) / 100

/-- The payload of `get_statistics`:
`(total_users, total_items, total_inventory_value, average_price)`.
`getD 0` stands in for attribute reads Python would crash on when the
field is `None`; theorems assume item fields are present. -/
def get_statistics (udb : Db User) (idb : Db Item) : Nat × Nat × ℚ × ℚ :=
  let total_users := udb.length
  let total_items := idb.length
  let total_inventory_value :=
    ((dbValues idb).map
      (fun it => it.price.getD 0 * ((it.quantity.getD 0 : ℤ) : ℚ))).sum
  let avg_item_price :=
    if 0 < total_items then
      ((dbValues idb).map (fun it => it.price.getD 0)).sum / (total_items : ℚ)
    else 0
  (total_users, total_items, round2dp total_inventory_value,
    round2dp avg_item_price)

/-! ### Issued-identifier model for the item collection

`create_item` draws its id from `str(uuid4())`; the run below threads the
sequence of drawn uuid strings through a list of create/delete calls and
records every id ever issued.  uuid4's contract — each drawn value is
non-empty and distinct from every other drawn in the process — appears as
a hypothesis on the drawn strings. -/

/-- One API call against the item collection that touches identifiers. -/
inductive ItemOp where
  | create (gen : String) (now : Nat) (payload : Item)
  | del (item_id : String)
  deriving Repr

/-- The uuid strings drawn by a run. -/
def gensOf (ops : List ItemOp) : List String :=
  match ops with
  | [] => []
  | .create g _ _ :: rest => g :: gensOf rest
  | .del _ :: rest => gensOf rest

/-- Run a sequence of create/delete calls, accumulating every identifier
ever issued (deletion does not un-issue). -/
def runItemOps (db : Db Item) (issued : List String) (ops : List ItemOp) :
    Db Item × List String :=
  match ops with
  | [] => (db, issued)
  | .create g now p :: rest =>
      runItemOps (create_item db g now p).2 (issued ++ [g]) rest
  | .del i :: rest =>
      runItemOps (delete_item db i).2 issued rest

/-! ### Reference-level (heap) model of `update_item`

In the source, `stored_item = items_db[item_id]` binds the very object
held by the dict, the `setattr` loop mutates that object in place, and
`items_db[item_id] = stored_item` re-stores the same reference.  To talk
about aliasing, the heap model makes references explicit: the heap is a
list of `Item` objects, a reference is an index into it, and the dict maps
an id to a reference. -/

/-- Process state with an explicit object heap. -/
structure HState where
  heap : List Item
  db : List (String × Nat)
  deriving Repr

/-- Follow a reference to the object it denotes. -/
def hDeref (s : HState) (r : Nat) : Option Item :=
  s.heap[r]?

/-- `items_db[item_id]` as the source uses it: the dict hands out the
stored object (a reference), not a copy. -/
def hGetItem (s : HState) (item_id : String) : Option Nat :=
  (s.db.find? (fun p => decide (p.1 = item_id))).map (fun p => p.2)

/-- `create_item` in the heap model: allocate the record as a fresh
object and map the new id to it. -/
def hCreateItem (s : HState) (gen : String) (now : Nat) (item : Item) :
    HState × Nat :=
  let obj := { item with id := some gen, created_at := some now }
  (⟨s.heap ++ [obj], s.db ++ [(gen, s.heap.length)]⟩, s.heap.length)

/-- `update_item` in the heap model: the `setattr` loop mutates the
stored object's heap cell in place; the dict still maps the id to the
same reference. -/
def hUpdateItem (s : HState) (item_id : String) (p : ItemUpdate) : HState :=
  match hGetItem s item_id with
  | none => s
  | some r =>
      match s.heap[r]? with
      | none => s
      | some obj => { s with heap := s.heap.set r (applyItemUpdate obj p) }

/-! ### Example records used to instantiate theorems with hypotheses -/

/-- Sample item, price 10, quantity 2. -/
def itemA : Item :=
  { id := some "a", title := some "Alpha", description := none,
    price := some 10, quantity := some 2, created_at := some 0 }

/-- Sample item, price 20, quantity 1. -/
def itemB : Item :=
  { id := some "b", title := some "Beta", description := none,
    price := some 20, quantity := some 1, created_at := some 1 }

/-- Sample item, price 30, quantity 1. -/
def itemC : Item :=
  { id := some "c", title := some "Gamma", description := none,
    price := some 30, quantity := some 1, created_at := some 2 }

/-- A sample item store in insertion order. -/
def exItems : Db Item := [("a", itemA), ("b", itemB), ("c", itemC)]

/-! ### Helper lemmas -/

/-- `get_all_items` is the pagination window applied after the filter
stage. -/
theorem get_all_items_window (db : Db Item) (skip limit : Nat)
    (mp xp : Option ℚ) :
    get_all_items db skip limit mp xp
      = ((itemsFiltered db mp xp).drop skip).take limit := by
  cases mp <;> cases xp <;> rfl

/-- C1: price filters on item listing are conjunctive, applied to the
collection in insertion order before the skip/limit window; an absent
bound imposes no constraint, and with `minPrice = 10, maxPrice = 20` the
filter stage retains exactly the records of the unfiltered listing whose
price lies in [10, 20]. -/
theorem listItems_price_filters_conjunctive (db : Db Item)
    (skip limit : Nat) (mp xp : Option ℚ) :
    get_all_items db skip limit mp xp
        = ((itemsFiltered db mp xp).drop skip).take limit
    ∧ itemsFiltered db mp xp
        = (dbValues db).filter (fun it =>
            (match mp with | none => true | some m => priceGe it m)
            && (match xp with | none => true | some m => priceLe it m))
    ∧ (∀ it, it ∈ itemsFiltered db (some 10) (some 20)
        ↔ it ∈ dbValues db
          ∧ ∃ p : ℚ, it.price = some p ∧ 10 ≤ p ∧ p ≤ 20) := by
  refine ⟨get_all_items_window db skip limit mp xp, ?_, ?_⟩
  · cases mp <;> cases xp <;>
      simp only [itemsFiltered, List.filter_filter]
    · simp
    · simp
    · simp
    · congr 1
      funext it
      exact Bool.and_comm _ _
  · intro it
    simp only [itemsFiltered, List.filter_filter, List.mem_filter,
      Bool.and_eq_true, and_assoc]
    constructor
    · rintro ⟨hmem, hle, hge⟩
      refine ⟨hmem, ?_⟩
      cases hp : it.price with
      | none => rw [priceGe, hp] at hge; cases hge
      | some p =>
          rw [priceGe, hp] at hge
          rw [priceLe, hp] at hle
          exact ⟨p, rfl, by exact_mod_cast of_decide_eq_true hge,
            by exact_mod_cast of_decide_eq_true hle⟩
    · rintro ⟨hmem, p, hp, h10, h20⟩
      refine ⟨hmem, ?_, ?_⟩
      · rw [priceLe, hp]; exact decide_eq_true h20
      · rw [priceGe, hp]; exact decide_eq_true h10

/-- Witness for C1 at a concrete store: the item with price 20 is
retained by the [10, 20] filter stage. -/
theorem listItems_price_filters_conjunctive_witness :
    itemB ∈ itemsFiltered exItems (some 10) (some 20)
    ∧ itemB ∈ dbValues exItems
    ∧ ∃ p : ℚ, itemB.price = some p ∧ 10 ≤ p ∧ p ≤ 20 := by
  have hin : itemB ∈ dbValues exItems
      ∧ ∃ p : ℚ, itemB.price = some p ∧ 10 ≤ p ∧ p ≤ 20 := by
    refine ⟨by simp [dbValues, exItems], 20, rfl, by norm_num, by norm_num⟩
  exact ⟨((listItems_price_filters_conjunctive exItems 0 10
    (some 10) (some 20)).2.2 itemB).mpr hin, hin⟩

/-- C2: the item listing window returns at most `limit` records,
consecutive windows with the same filters concatenate to one larger
window, and a `skip` at or past the filtered count yields the empty
result (computed totally — no failure case exists in the function). -/
theorem listItems_pagination_consistent (db : Db Item)
    (mp xp : Option ℚ) :
    (∀ skip limit, (get_all_items db skip limit mp xp).length ≤ limit)
    ∧ (∀ n m, get_all_items db 0 n mp xp ++ get_all_items db n m mp xp
        = get_all_items db 0 (n + m) mp xp)
    ∧ (∀ skip limit, (itemsFiltered db mp xp).length ≤ skip →
        get_all_items db skip limit mp xp = []) := by
  refine ⟨?_, ?_, ?_⟩
  · intro skip limit
    rw [get_all_items_window]
    exact List.length_take_le limit _
  · intro n m
    rw [get_all_items_window, get_all_items_window, get_all_items_window,
      List.drop_zero]
    exact (List.take_add _ n m).symm
  · intro skip limit h
    rw [get_all_items_window, List.drop_eq_nil_iff.mpr h, List.take_nil]

/-- Witness for C2 at a concrete store: a skip past the filtered count
returns the empty listing. -/
theorem listItems_pagination_consistent_witness :
    (itemsFiltered exItems none none).length ≤ 5
    ∧ get_all_items exItems 5 2 none none = [] :=
  ⟨by decide,
    (listItems_pagination_consistent exItems none none).2.2 5 2 (by decide)⟩

/-- A found key makes the dict non-empty for `any`. -/
theorem dbFind_some_any {α : Type} (db : Db α) (k : String) (v : α)
    (h : dbFind db k = some v) :
    db.any (fun p => decide (p.1 = k)) = true := by
  induction db with
  | nil => rw [dbFind] at h; cases h
  | cons b t ih =>
      by_cases hk : b.1 = k
      · simp [hk]
      · have ht : dbFind t k = some v := by
          simpa [dbFind, hk] using h
        simp [ih ht]

/-- Re-assigning an entry whose key appears in no element of the list
leaves the list unchanged. -/
theorem map_keep_of_no_key {α : Type} (t : Db α) (k : String) (v : α)
    (h : ∀ b ∈ t, b.1 ≠ k) :
    t.map (fun p => if p.1 = k then (k, v) else p) = t := by
  induction t with
  | nil => rfl
  | cons b t ih =>
      rw [List.map_cons, if_neg (h b (List.mem_cons_self b t)),
        ih (fun b' hb' => h b' (List.mem_cons_of_mem b hb'))]

/-- Writing back the very value a key already maps to is a no-op on a
dict with distinct keys. -/
theorem dbInsert_found_self {α : Type} (db : Db α) (k : String) (v : α)
    (hw : db.Pairwise (fun a b => a.1 ≠ b.1))
    (h : dbFind db k = some v) :
    dbInsert db k v = db := by
  induction db with
  | nil => rw [dbFind] at h; cases h
  | cons b t ih =>
      obtain ⟨hb, hw'⟩ := List.pairwise_cons.mp hw
      by_cases hk : b.1 = k
      · have hfind : dbFind (b :: t) k = some b.2 := by
          simp [dbFind, hk]
        have hv : b.2 = v := by
          rw [hfind] at h; exact Option.some.inj h
        rw [dbInsert, if_pos]
        · rw [List.map_cons, if_pos hk,
            map_keep_of_no_key t k v (fun b' hb' => hk ▸ (hb b' hb').symm)]
          cases b with
          | mk b1 b2 => simp only at hk hv; rw [hk, hv]
        · exact dbFind_some_any _ k v h
      · have hfind : dbFind (b :: t) k = dbFind t k := by
          simp [dbFind, hk]
        rw [hfind] at h
        have hany : t.any (fun p => decide (p.1 = k)) = true :=
          dbFind_some_any t k v h
        have hins : dbInsert t k v = t := ih hw' h
        rw [dbInsert] at hins ⊢
        rw [if_pos hany] at hins
        rw [List.any_cons, decide_eq_false hk, Bool.false_or, if_pos hany,
          List.map_cons, if_neg hk, hins]

/-- C3: a successful update overwrites exactly the fields present in the
payload; absent fields, the identifier and the creation timestamp carry
over unchanged, and the empty payload returns the stored record (and the
store) unchanged. -/
theorem updateItem_changes_exactly_present_fields (it : Item)
    (p : ItemUpdate) :
    (applyItemUpdate it p).id = it.id
    ∧ (applyItemUpdate it p).created_at = it.created_at
    ∧ (p.title = none → (applyItemUpdate it p).title = it.title)
    ∧ (∀ v, p.title = some v → (applyItemUpdate it p).title = v)
    ∧ (p.description = none →
        (applyItemUpdate it p).description = it.description)
    ∧ (∀ v, p.description = some v → (applyItemUpdate it p).description = v)
    ∧ (p.price = none → (applyItemUpdate it p).price = it.price)
    ∧ (∀ v, p.price = some v → (applyItemUpdate it p).price = v)
    ∧ (p.quantity = none → (applyItemUpdate it p).quantity = it.quantity)
    ∧ (∀ v, p.quantity = some v → (applyItemUpdate it p).quantity = v)
    ∧ applyItemUpdate it emptyItemUpdate = it
    ∧ (∀ db item_id, db.Pairwise (fun a b => a.1 ≠ b.1) →
        dbFind db item_id = some it →
        update_item db item_id emptyItemUpdate = (.ok it, db)) := by
  refine ⟨rfl, rfl, ?_, ?_, ?_, ?_, ?_, ?_, ?_, ?_, ?_, ?_⟩
  · intro h; simp [applyItemUpdate, h]
  · intro v h; simp [applyItemUpdate, h]
  · intro h; simp [applyItemUpdate, h]
  · intro v h; simp [applyItemUpdate, h]
  · intro h; simp [applyItemUpdate, h]
  · intro v h; simp [applyItemUpdate, h]
  · intro h; simp [applyItemUpdate, h]
  · intro v h; simp [applyItemUpdate, h]
  · simp [applyItemUpdate, emptyItemUpdate]
  · intro db item_id hw h
    have hempty : applyItemUpdate it emptyItemUpdate = it := by
      simp [applyItemUpdate, emptyItemUpdate]
    have hval : emptyItemUpdate.valid = true := rfl
    rw [update_item, if_pos hval, h]
    simp only [hempty]
    rw [dbInsert_found_self db item_id it hw h]

/-- Witness for C3 at a concrete record and payload (price present,
title absent, and separately the empty payload). -/
theorem updateItem_changes_exactly_present_fields_witness :
    (applyItemUpdate itemA
        ⟨none, none, some (some 25), none⟩).price = some 25
    ∧ (applyItemUpdate itemA
        ⟨none, none, some (some 25), none⟩).title = itemA.title
    ∧ (applyItemUpdate itemA
        ⟨none, none, some (some 25), none⟩).id = itemA.id
    ∧ applyItemUpdate itemA emptyItemUpdate = itemA
    ∧ update_item exItems "a" emptyItemUpdate = (.ok itemA, exItems) := by
  obtain ⟨h1, _, h3, _, _, _, _, h8, _, _, h11, h12⟩ :=
    updateItem_changes_exactly_present_fields itemA
      ⟨none, none, some (some 25), none⟩
  exact ⟨h8 (some 25) rfl, h3 rfl, h1, by decide,
    h12 exItems "a" (by decide) (by decide)⟩

/-! ### The explicit-null update slip (C4, C5)

Every mutable field of `UserUpdate`/`ItemUpdate` is declared
`Optional[...] = Field(None, ...)`, i.e. `Union[..., None]`: body
validation accepts an explicit JSON `null` for the field, the field is
"set" so `model_dump(exclude_unset=True)` keeps it, and the `setattr`
loop writes `None` into the stored record — which then violates the
constraints of the `User`/`Item` model itself (e.g. `price: float =
Field(..., gt=0)`). -/

/-- The update body `{"price": null}`. -/
def priceNullUpdate : ItemUpdate :=
  { title := none, description := none, price := some none,
    quantity := none }

/-- The update body `{"name": null}`. -/
def nameNullUpdate : UserUpdate :=
  { name := some none, email := none, age := none }

/-- A valid stored item, as created through the API. -/
def widgetItem : Item :=
  { id := some "i1", title := some "Widget", description := none,
    price := some (mkRat 999 100), quantity := some 5, created_at := some 0 }

/-- A valid stored user, as created through the API. -/
def rameshUser : User :=
  { id := some "u1", name := some "Ramesh", email := some "ramesh@example.com",
    age := some 30, created_at := some 0 }

/-- C4 (code bug): the body `{"price": null}` passes `ItemUpdate`
validation, so `update_item` succeeds instead of failing with
ValidationError, and it rewrites the store, leaving a record whose price
violates the `gt=0` constraint of the `Item` model. -/
theorem updateItem_accepts_null_price :
    ItemUpdate.valid priceNullUpdate = true
    ∧ itemFieldOk widgetItem = true
    ∧ update_item [("i1", widgetItem)] "i1" priceNullUpdate
        = (.ok { widgetItem with price := none },
           [("i1", { widgetItem with price := none })])
    ∧ (update_item [("i1", widgetItem)] "i1" priceNullUpdate).2
        ≠ [("i1", widgetItem)]
    ∧ itemFieldOk { widgetItem with price := none } = false := by
  refine ⟨rfl, ?_, ?_, ?_, rfl⟩
  · decide
  · rfl
  · decide

/-- C5 (code bug): the body `{"name": null}` passes `UserUpdate`
validation, and the resulting store — reached from a state whose only
record satisfies every `User` field constraint — holds a record whose
name violates the non-empty-name constraint, for any email-syntax
predicate. -/
theorem updateUser_null_breaks_invariant (emailOk : String → Bool)
    (h : emailOk "ramesh@example.com" = true) :
    userFieldOk emailOk rameshUser = true
    ∧ UserUpdate.valid emailOk nameNullUpdate = true
    ∧ (update_user [("u1", rameshUser)] emailOk "u1" nameNullUpdate).1
        = .ok { rameshUser with name := none }
    ∧ dbFind (update_user [("u1", rameshUser)] emailOk "u1"
        nameNullUpdate).2 "u1" = some { rameshUser with name := none }
    ∧ userFieldOk emailOk { rameshUser with name := none } = false := by
  refine ⟨?_, rfl, ?_, ?_, rfl⟩
  · have hu : userFieldOk emailOk rameshUser
        = (nameOk (some "Ramesh") && emailOk "ramesh@example.com"
            && ageOk (some 30)) := rfl
    rw [hu, h]
    decide
  · rfl
  · have hval : UserUpdate.valid emailOk nameNullUpdate = true := rfl
    rw [update_user, if_pos hval]
    rfl

/-- Witness for C5 at a concrete email predicate. -/
theorem updateUser_null_breaks_invariant_witness :
    userFieldOk (fun _ => true) { rameshUser with name := none } = false :=
  (updateUser_null_breaks_invariant (fun _ => true) rfl).2.2.2.2

/-- Shape lemma: when every item of the list carries its `price` and
`quantity`, the `getD`-reads of `get_statistics` compute the plain-pair
sums. -/
theorem stats_shape (l : List Item) (ps : List (ℚ × ℤ))
    (h : l.map (fun it => (it.price, it.quantity))
        = ps.map (fun x => (some x.1, some x.2))) :
    l.map (fun it => it.price.getD 0 * ((it.quantity.getD 0 : ℤ) : ℚ))
        = ps.map (fun x => x.1 * (x.2 : ℚ))
    ∧ l.map (fun it => it.price.getD 0) = ps.map Prod.fst
    ∧ l.length = ps.length := by
  induction l generalizing ps with
  | nil =>
      cases ps with
      | nil => exact ⟨rfl, rfl, rfl⟩
      | cons q qs => cases h
  | cons it t ih =>
      cases ps with
      | nil => cases h
      | cons q qs =>
          rw [List.map_cons, List.map_cons] at h
          have h1 : (it.price, it.quantity) = (some q.1, some q.2) :=
            (List.cons.injEq _ _ _ _ ▸ h).1
          have h2 : t.map (fun it => (it.price, it.quantity))
              = qs.map (fun x => (some x.1, some x.2)) :=
            (List.cons.injEq _ _ _ _ ▸ h).2
          have hp : it.price = some q.1 := congrArg Prod.fst h1
          have hq : it.quantity = some q.2 := congrArg Prod.snd h1
          obtain ⟨e1, e2, e3⟩ := ih qs h2
          refine ⟨?_, ?_, ?_⟩ <;>
            simp [hp, hq, e1, e2, e3]

/-- C6: `get_statistics` returns the user count, the item count, the
total inventory value Σ price·quantity and the average item price (the
arithmetic mean of prices, 0 for an empty item collection), the two
monetary values rounded to 2 decimal places only after the full-precision
sums are formed. -/
theorem getStatistics_counts_value_and_mean (udb : Db User)
    (idb : Db Item) (ps : List (ℚ × ℤ))
    (h : (dbValues idb).map (fun it => (it.price, it.quantity))
        = ps.map (fun x => (some x.1, some x.2))) :
    get_statistics udb idb
      = (udb.length, idb.length,
         round2dp ((ps.map (fun x => x.1 * (x.2 : ℚ))).sum),
         round2dp (if ps.length = 0 then 0
           else (ps.map Prod.fst).sum / (ps.length : ℚ))) := by
  obtain ⟨e1, e2, e3⟩ := stats_shape (dbValues idb) ps h
  have hlen : idb.length = ps.length := by
    rw [← e3, dbValues, List.length_map]
  rw [get_statistics]
  simp only [e1, e2, hlen]
  by_cases hz : ps.length = 0
  · simp [hz]
  · simp [hz, Nat.pos_of_ne_zero hz]

/-- Witness for C6: the spec's worked example — items with
(price 10, quantity 2) and (price 20, quantity 1) give total inventory
value 40 and average price 15. -/
theorem getStatistics_counts_value_and_mean_witness :
    get_statistics [] [("a", itemA), ("b", itemB)] = (0, 2, 40, 15) := by
  rw [getStatistics_counts_value_and_mean []
    [("a", itemA), ("b", itemB)] [(10, 2), (20, 1)] (by rfl)]
  norm_num [round2dp, roundHalfToEven]

/-- Looking up `k` after replacing the value stored at `k` finds the new
value. -/
theorem find_in_replaced {α : Type} (db : Db α) (k : String) (v : α)
    (hany : db.any (fun p => decide (p.1 = k)) = true) :
    dbFind (db.map (fun p => if p.1 = k then (k, v) else p)) k = some v := by
  induction db with
  | nil => cases hany
  | cons b t ih =>
      by_cases hk : b.1 = k
      · simp [dbFind, hk]
      · have ht : t.any (fun p => decide (p.1 = k)) = true := by
          simpa [hk] using hany
        simpa [dbFind, hk] using ih ht

/-- `db[k] = v` makes `db[k]` yield `v`, whether `k` was present or
fresh. -/
theorem dbFind_dbInsert_self {α : Type} (db : Db α) (k : String) (v : α) :
    dbFind (dbInsert db k v) k = some v := by
  rw [dbInsert]
  by_cases hany : db.any (fun p => decide (p.1 = k)) = true
  · rw [if_pos hany]
    exact find_in_replaced db k v hany
  · rw [if_neg hany]
    have hnone : db.find? (fun p => decide (p.1 = k)) = none := by
      rw [List.find?_eq_none]
      intro x hx
      simp only [decide_eq_true_eq]
      intro hxk
      exact hany (List.any_eq_true.mpr ⟨x, hx, decide_eq_true hxk⟩)
    simp [dbFind, hnone]

/-- The issued-identifier log of a run is the starting log followed by
the uuid strings drawn by the creates, deletions notwithstanding. -/
theorem runItemOps_issued (db : Db Item) (issued : List String)
    (ops : List ItemOp) :
    (runItemOps db issued ops).2 = issued ++ gensOf ops := by
  induction ops generalizing db issued with
  | nil => simp [runItemOps, gensOf]
  | cons op rest ih =>
      cases op with
      | create g now p =>
          rw [runItemOps, ih, gensOf, List.append_assoc,
            List.singleton_append]
      | del i =>
          rw [runItemOps, ih, gensOf]

/-- C7: creation stores the record under a server-assigned identifier and
creation timestamp, overwriting any caller-supplied values; and so long
as the uuid source honours its contract (each drawn string non-empty and
distinct from every other draw of the process), every identifier ever
issued over any create/delete sequence is non-empty and distinct from
every other — deletion never makes an identifier reusable. -/
theorem create_assigns_fresh_ids (db db0 : Db Item) (g : String)
    (now : Nat) (payload : Item) (ops : List ItemOp)
    (hnd : (gensOf ops).Nodup) (hne : ∀ s ∈ gensOf ops, s ≠ "") :
    ((create_item db g now payload).1.id = some g
      ∧ (create_item db g now payload).1.created_at = some now
      ∧ dbFind (create_item db g now payload).2 g
          = some (create_item db g now payload).1)
    ∧ ((runItemOps db0 [] ops).2 = gensOf ops
      ∧ (runItemOps db0 [] ops).2.Nodup
      ∧ ∀ s ∈ (runItemOps db0 [] ops).2, s ≠ "") := by
  refine ⟨⟨rfl, rfl, dbFind_dbInsert_self db g _⟩, ?_, ?_, ?_⟩
  · rw [runItemOps_issued, List.nil_append]
  · rw [runItemOps_issued, List.nil_append]; exact hnd
  · rw [runItemOps_issued, List.nil_append]; exact hne

/-- Witness for C7: a create / delete / create run issues the two drawn
uuids, both non-empty and distinct, and the first create stores its
record under the drawn id with the drawn timestamp. -/
theorem create_assigns_fresh_ids_witness :
    ((create_item [] "g1" 7 itemC).1.id = some "g1"
      ∧ (create_item [] "g1" 7 itemC).1.created_at = some 7)
    ∧ (runItemOps [] []
        [.create "g1" 7 itemC, .del "g1", .create "g2" 8 itemC]).2
        = ["g1", "g2"] := by
  have h := create_assigns_fresh_ids [] [] "g1" 7 itemC
    [.create "g1" 7 itemC, .del "g1", .create "g2" 8 itemC]
    (by decide) (by decide)
  exact ⟨⟨h.1.1, h.1.2.1⟩, h.2.1⟩

/-- After `del db[k]`, looking up `k` finds nothing. -/
theorem dbFind_dbDelete_self {α : Type} (db : Db α) (k : String) :
    dbFind (dbDelete db k) k = none := by
  have hnone : (dbDelete db k).find? (fun p => decide (p.1 = k)) = none := by
    rw [List.find?_eq_none]
    intro x hx
    have hmem := (List.mem_filter.mp hx).2
    simp only [Bool.not_eq_eq_eq_not, Bool.not_true, decide_eq_false_iff_not]
      at hmem
    simpa using hmem
  rw [dbFind, hnone]
  rfl

/-- C8: on an identifier absent from its collection, get, update and
delete all answer NotFound and leave the store untouched (update leaves
it untouched whatever the body); and deleting an identifier then getting
it always answers NotFound, in both collections. -/
theorem absent_id_not_found (udb : Db User) (idb : Db Item)
    (emailOk : String → Bool) (uid iid : String)
    (up : UserUpdate) (ip : ItemUpdate)
    (hu : dbFind udb uid = none) (hi : dbFind idb iid = none) :
    (get_user udb uid = .error .notFound
      ∧ (update_user udb emailOk uid up).2 = udb
      ∧ (up.valid emailOk = true →
          update_user udb emailOk uid up = (.error .notFound, udb))
      ∧ delete_user udb uid = (.error .notFound, udb))
    ∧ (get_item idb iid = .error .notFound
      ∧ (update_item idb iid ip).2 = idb
      ∧ (ip.valid = true →
          update_item idb iid ip = (.error .notFound, idb))
      ∧ delete_item idb iid = (.error .notFound, idb))
    ∧ (∀ (db : Db User) (k : String),
        get_user (delete_user db k).2 k = .error .notFound)
    ∧ (∀ (db : Db Item) (k : String),
        get_item (delete_item db k).2 k = .error .notFound) := by
  refine ⟨⟨?_, ?_, ?_, ?_⟩, ⟨?_, ?_, ?_, ?_⟩, ?_, ?_⟩
  · rw [get_user, hu]
  · rw [update_user]
    by_cases hv : up.valid emailOk = true
    · rw [if_pos hv, hu]
    · rw [if_neg hv]
  · intro hv; rw [update_user, if_pos hv, hu]
  · rw [delete_user, hu]; rfl
  · rw [get_item, hi]
  · rw [update_item]
    by_cases hv : ip.valid = true
    · rw [if_pos hv, hi]
    · rw [if_neg hv]
  · intro hv; rw [update_item, if_pos hv, hi]
  · rw [delete_item, hi]; rfl
  · intro db k
    rw [delete_user]
    by_cases hf : (dbFind db k).isSome = true
    · rw [if_pos hf]
      rw [get_user, dbFind_dbDelete_self]
    · rw [if_neg hf]
      rw [get_user, Option.not_isSome_iff_eq_none.mp hf]
  · intro db k
    rw [delete_item]
    by_cases hf : (dbFind db k).isSome = true
    · rw [if_pos hf]
      rw [get_item, dbFind_dbDelete_self]
    · rw [if_neg hf]
      rw [get_item, Option.not_isSome_iff_eq_none.mp hf]

/-- Witness for C8 at concrete stores and identifiers. -/
theorem absent_id_not_found_witness :
    get_user [("u1", rameshUser)] "nope" = .error .notFound
    ∧ delete_item exItems "zz" = (.error .notFound, exItems)
    ∧ get_item (delete_item exItems "a").2 "a" = .error .notFound := by
  have h := absent_id_not_found [("u1", rameshUser)] exItems
    (fun _ => true) "nope" "zz" emptyUserUpdate emptyItemUpdate
    (by decide) (by decide)
  exact ⟨h.1.1, h.2.1.2.2.2, h.2.2.2 exItems "a"⟩

/-- `isPrefixOf` answers true exactly when the second list extends the
first. -/
theorem isPrefixOf_shape (n : List Char) :
    ∀ h : List Char, n.isPrefixOf h = true ↔ ∃ t, n ++ t = h := by
  induction n with
  | nil => intro h; simp [List.isPrefixOf]
  | cons a as ih =>
      intro h
      cases h with
      | nil => simp [List.isPrefixOf]
      | cons b bs =>
          rw [List.isPrefixOf, Bool.and_eq_true, beq_iff_eq, ih bs]
          constructor
          · rintro ⟨hab, t, ht⟩
            exact ⟨t, by rw [List.cons_append, hab, ht]⟩
          · rintro ⟨t, ht⟩
            rw [List.cons_append] at ht
            injection ht with h1 h2
            exact ⟨h1, t, h2⟩

/-- `containsSub` answers true exactly when the needle occurs inside the
hay, i.e. models Python's substring operator `in`. -/
theorem containsSub_shape (n : List Char) :
    ∀ h : List Char, containsSub n h = true ↔ ∃ s t, s ++ n ++ t = h := by
  intro h
  induction h with
  | nil =>
      rw [containsSub, List.isEmpty_iff]
      constructor
      · intro hn
        exact ⟨[], [], by simp [hn]⟩
      · rintro ⟨s, t, hst⟩
        rcases List.append_eq_nil.mp hst with ⟨hsn, ht⟩
        exact (List.append_eq_nil.mp hsn).2
  | cons c cs ih =>
      rw [containsSub, Bool.or_eq_true, isPrefixOf_shape, ih]
      constructor
      · rintro (⟨u, hu⟩ | ⟨s, u, hsu⟩)
        · exact ⟨[], u, by simpa using hu⟩
        · exact ⟨c :: s, u, by simp [hsu]⟩
      · rintro ⟨s, u, hsu⟩
        cases s with
        | nil => exact Or.inl ⟨u, by simpa using hsu⟩
        | cons c' s' =>
            rw [List.cons_append, List.cons_append] at hsu
            injection hsu with h1 h2
            exact Or.inr ⟨s', u, h2⟩

/-- C9: the email search returns exactly the users whose (lowered) email
contains the (lowered) search string as a substring — every match, in
store order, with no pagination window. -/
theorem searchUsers_case_insensitive_substring (db : Db User)
    (q : String) (_hmail : ∀ u ∈ dbValues db, u.email.isSome = true) :
    (∀ u, u ∈ search_users_by_email db q
      ↔ u ∈ dbValues db
        ∧ ∃ e, u.email = some e
          ∧ ∃ s t, s ++ (strLower q).data ++ t = (strLower e).data)
    ∧ (search_users_by_email db q).Sublist (dbValues db) := by
  constructor
  · intro u
    rw [search_users_by_email, List.mem_filter]
    constructor
    · rintro ⟨hm, hcond⟩
      refine ⟨hm, ?_⟩
      cases he : u.email with
      | none => rw [he] at hcond; cases hcond
      | some e =>
          rw [he] at hcond
          exact ⟨e, rfl, (containsSub_shape _ _).mp hcond⟩
    · rintro ⟨hm, e, he, hst⟩
      refine ⟨hm, ?_⟩
      rw [he]
      exact (containsSub_shape _ _).mpr hst
  · exact List.filter_sublist _

/-- Witness for C9: an upper-case query matches a lower-case email. -/
theorem searchUsers_case_insensitive_substring_witness :
    rameshUser ∈ search_users_by_email [("u1", rameshUser)] "RAMESH" := by
  have h := searchUsers_case_insensitive_substring
    [("u1", rameshUser)] "RAMESH" (by decide)
  exact (h.1 rameshUser).mpr
    ⟨by decide, "ramesh@example.com", rfl,
      [], "@example.com".data, by decide⟩

/-! ### C10: the merge is not pure — `setattr` mutates the shared object -/

/-- A creation payload for the heap-model scenario. -/
def gadgetPayload : Item :=
  { id := none, title := some "Gadget", description := none,
    price := some 1, quantity := some 1, created_at := none }

/-- The heap state after creating one item through the API. -/
def gadgetState : HState :=
  (hCreateItem ⟨[], []⟩ "i1" 0 gadgetPayload).1

/-- The record object as stored by that creation. -/
def gadgetStored : Item :=
  { gadgetPayload with id := some "i1", created_at := some 0 }

/-- C10 counterexample: `items_db["i1"]` hands out a reference (index 0)
before the update; after `update_item` runs its `setattr` loop, that very
reference dereferences to a different value — the merge mutated its input
in place, so a record obtained before the update is affected by it. -/
theorem update_mutates_shared_record :
    hGetItem gadgetState "i1" = some 0
    ∧ hGetItem (hUpdateItem gadgetState "i1"
        ⟨none, none, some (some 25), none⟩) "i1" = some 0
    ∧ hDeref (hUpdateItem gadgetState "i1"
        ⟨none, none, some (some 25), none⟩) 0
      ≠ hDeref gadgetState 0 := by
  refine ⟨rfl, rfl, ?_⟩
  intro h
  have h25 : hDeref (hUpdateItem gadgetState "i1"
      ⟨none, none, some (some 25), none⟩) 0
      = some { gadgetStored with price := some 25 } := rfl
  have h1 : hDeref gadgetState 0 = some gadgetStored := rfl
  rw [h25, h1] at h
  have hp : (25 : ℚ) = 1 :=
    Option.some.inj (congrArg Item.price (Option.some.inj h))
  norm_num at hp

/-- C10 amended: `update_item` merges by mutating the stored record
object in place — the dict still maps the id to the same reference, and
that reference's cell afterwards holds exactly the functional merge of
the old value with the payload; a reference obtained before the update
therefore observes the merged value. -/
theorem update_merges_in_place (s : HState) (item_id : String)
    (p : ItemUpdate) (r : Nat) (obj : Item)
    (h1 : hGetItem s item_id = some r) (h2 : hDeref s r = some obj) :
    (hUpdateItem s item_id p).heap = s.heap.set r (applyItemUpdate obj p)
    ∧ (hUpdateItem s item_id p).db = s.db
    ∧ hDeref (hUpdateItem s item_id p) r = some (applyItemUpdate obj p)
    ∧ hGetItem (hUpdateItem s item_id p) item_id = some r := by
  have hup : hUpdateItem s item_id p
      = { s with heap := s.heap.set r (applyItemUpdate obj p) } := by
    rw [hDeref] at h2
    rw [hUpdateItem, h1]
    show (match s.heap[r]? with
      | none => s
      | some o => { s with heap := s.heap.set r (applyItemUpdate o p) })
      = { s with heap := s.heap.set r (applyItemUpdate obj p) }
    rw [h2]
  have hlt : r < s.heap.length := by
    rw [hDeref] at h2
    exact (List.getElem?_eq_some_iff.mp h2).1
  refine ⟨by rw [hup], by rw [hup], ?_, ?_⟩
  · rw [hup, hDeref]
    simpa using List.getElem?_set_self (a := applyItemUpdate obj p) hlt
  · rw [hup, hGetItem]
    exact h1

/-- Witness for the amended C10 at the concrete one-item heap. -/
theorem update_merges_in_place_witness :
    hDeref (hUpdateItem gadgetState "i1"
        ⟨none, none, some (some 25), none⟩) 0
      = some (applyItemUpdate gadgetStored
          ⟨none, none, some (some 25), none⟩) :=
  (update_merges_in_place gadgetState "i1"
    ⟨none, none, some (some 25), none⟩ 0 gadgetStored rfl rfl).2.2.1

end FirstUvPro
